import Mathlib

/-!
Verification of the research-assistant workflow core (src/app.py).

The embedding follows the source: the shared state is the AgentState
TypedDict (lines 62-67), the four step handlers are the closures defined in
ResearchAssistantAgent._create_workflow (lines 96-219), the graph is the
edge list added at lines 231-235, and the run entry point is
ResearchAssistantAgent.research (lines 241-261).  External capabilities
(the Groq chat model and the Tavily search tool) are opaque, possibly
failing functions carried in a Caps record; every capability call a handler
makes is recorded in a call log so that call-count claims can be stated.
The LangGraph engine itself (channel merge, graph walk, MemorySaver) is
library code not present in src/; those parts are modelled from the spec,
as marked on each definition.
-/

/-- A chat message, as the LangChain message objects used by the source
(SystemMessage / HumanMessage / AIMessage). -/
inductive Msg where
  | system (content : String)
  | human (content : String)
  | ai (content : String)
deriving DecidableEq

/-- Content accessor, as msg.content in the source. -/
def Msg.content : Msg → String
  | .system c => c
  | .human c => c
  | .ai c => c

/-- Test for HumanMessage, as isinstance(msg, HumanMessage) at line 108. -/
def Msg.isHuman : Msg → Bool
  | .human _ => true
  | _ => false

/-- An error raised by an external capability (the source catches bare
Exception; the message is str(e)). -/
structure CapErr where
  message : String
deriving DecidableEq

/-- A formatted search result, the dict built at lines 126-130 with exactly
the three string keys title, content, url. -/
structure SearchItem where
  title : String
  content : String
  url : String
deriving DecidableEq

/-- A raw element of the search capability's response, before formatting:
either a dict (whose title/content/url keys may each be missing, as handled
by result.get(key, "") at lines 127-129) or a non-dict value (rejected by
the isinstance check at line 125). -/
inductive RawItem where
  | dict (title content url : Option String)
  | other
deriving DecidableEq

/-- The analysis record returned by analyze_research_content
(lines 46-59). -/
structure AnalysisRec where
  topic : String
  content_length : Nat
  key_points : List String
  analysis_timestamp : String
deriving DecidableEq

/-- The shared state, AgentState at lines 62-67.  The analysis channel
holds either the empty dict (none) or a populated record (some). -/
structure AgentState where
  messages : List Msg
  research_query : String
  search_results : List SearchItem
  analysis : Option AnalysisRec
  final_report : String
deriving DecidableEq

/-- A step's update dict: each field is present (some) or absent (none),
as the Python handlers return dicts mentioning only some state keys. -/
structure PartialState where
  messages : Option (List Msg) := none
  research_query : Option String := none
  search_results : Option (List SearchItem) := none
  analysis : Option (Option AnalysisRec) := none
  final_report : Option String := none
deriving DecidableEq

/-- Modelled from the spec: the per-channel merge performed by the engine
when it commits a step's update, per the channel annotations of AgentState
(lines 62-67): messages is Annotated with add_messages, so present entries
are appended to the end; every other channel is a plain last-value channel,
so a present value overwrites; an absent field leaves the channel
unchanged. -/
def merge (s : AgentState) (p : PartialState) : AgentState where
  messages :=
    match p.messages with
    | none => s.messages
    | some ms => s.messages ++ ms
  research_query :=
    match p.research_query with
    | none => s.research_query
    | some q => q
  search_results :=
    match p.search_results with
    | none => s.search_results
    | some r => r
  analysis :=
    match p.analysis with
    | none => s.analysis
    | some a => a
  final_report :=
    match p.final_report with
    | none => s.final_report
    | some r => r

/-- One recorded external-capability call: an llm.invoke with its message
list, or a search_tool.invoke with its query string. -/
inductive CapCall where
  | llmCall (msgs : List Msg)
  | searchCall (query : String)
deriving DecidableEq

/-- The external capabilities injected into the handlers: the chat model
(self.llm.invoke, returning the response content), the search tool
(self.search_tool.invoke), and the ambient clock read by
datetime.now().isoformat() at line 58. -/
structure Caps where
  llm : List Msg → Except CapErr String
  search : String → Except CapErr (List RawItem)
  now : String

/-- The system prompt of research_planner, lines 99-103. -/
def plannerSystemText : String :=
  "\n            You are a research planning assistant. Analyze the user's request and create a research plan.\n            Break down complex topics into specific, searchable queries.\n            Respond with a clear research strategy.\n            "

/-- The research_planner handler, lines 96-113: invokes the llm on the
system message prepended to the current messages, extracts the first
HumanMessage content as the research query, and returns an update with the
llm response as one new message plus the extracted query. -/
def researchPlanner (caps : Caps) (s : AgentState) :
    Except CapErr PartialState × List CapCall :=
  let callMsgs := Msg.system plannerSystemText :: s.messages
  match caps.llm callMsgs with
  | .error e => (.error e, [CapCall.llmCall callMsgs])
  | .ok resp =>
      let userMessage :=
        ((s.messages.find? Msg.isHuman).map Msg.content).getD ""
      (.ok { messages := some [Msg.ai resp],
             research_query := some userMessage },
       [CapCall.llmCall callMsgs])

/-- The formatting loop of web_searcher, lines 123-130: dict elements are
kept, projected to title/content/url with empty-string defaults, in order;
non-dict elements are dropped. -/
def formatResults : List RawItem → List SearchItem
  | [] => []
  | RawItem.dict t c u :: rest =>
      { title := t.getD "", content := c.getD "", url := u.getD "" }
        :: formatResults rest
  | RawItem.other :: rest => formatResults rest

/-- The per-element projection of the formatting loop body, lines 125-130:
a dict element yields the record of its title/content/url values with
empty-string defaults; a non-dict element yields nothing. -/
def formatRawItem : RawItem → Option SearchItem
  | RawItem.dict t c u =>
      some { title := t.getD "", content := c.getD "", url := u.getD "" }
  | RawItem.other => none

/-- The web_searcher handler, lines 115-143: on capability success returns
the formatted results and a count summary message; on capability failure
absorbs the error, returning empty results and a failure message. -/
def webSearcher (caps : Caps) (s : AgentState) :
    Except CapErr PartialState × List CapCall :=
  let query := s.research_query
  match caps.search query with
  | .ok raw =>
      let formatted := formatResults raw
      let summary :=
        "Found " ++ toString formatted.length
          ++ " relevant sources for: " ++ query
      (.ok { messages := some [Msg.ai summary],
             search_results := some formatted },
       [CapCall.searchCall query])
  | .error e =>
      (.ok { messages := some [Msg.ai ("Search error: " ++ e.message)],
             search_results := some [] },
       [CapCall.searchCall query])

/-- The analyze_research_content tool, lines 46-59: split on newlines,
keep stripped lines that are nonempty and longer than 50 characters, take
the first five as key points. -/
def analyzeResearchContent (content topic now : String) : AnalysisRec :=
  let lines := content.splitOn "\n"
  let key_points :=
    ((lines.map String.trim).filter
      (fun l => decide (l ≠ "" ∧ 50 < l.length))).take 5
  { topic := topic,
    content_length := content.length,
    key_points := key_points,
    analysis_timestamp := now }

/-- The content_analyzer handler, lines 145-171: with no search results it
returns an empty analysis and a nothing-to-analyze message (no halt);
otherwise it joins the results into one text and runs the analysis tool. -/
def contentAnalyzer (caps : Caps) (s : AgentState) :
    Except CapErr PartialState × List CapCall :=
  let results := s.search_results
  let query := s.research_query
  if results.isEmpty then
    (.ok { messages := some [Msg.ai "No search results to analyze."],
           analysis := some none }, [])
  else
    let combined := String.intercalate "\n\n"
      (results.map fun r => "Title: " ++ r.title ++ "\nContent: " ++ r.content)
    let a := analyzeResearchContent combined query caps.now
    (.ok { messages := some [Msg.ai "Content analysis completed."],
           analysis := some (some a) }, [])

/-- The search summary built by report_generator, lines 200-203: the top
three results, each rendered with content truncated to 200 characters. -/
def searchSummaryOf (results : List SearchItem) : String :=
  String.intercalate "\n"
    ((results.take 3).map fun r =>
      "• " ++ r.title ++ ": " ++ r.content.take 200 ++ "...")

/-- Model of json.dumps(analysis, indent=2) at line 205: the empty dict
renders as braces, a populated record as an indented JSON object. -/
def analysisJson : Option AnalysisRec → String
  | none => "\x7b\x7d"
  | some a =>
      "\x7b\n  \"topic\": \"" ++ a.topic
        ++ "\",\n  \"content_length\": " ++ toString a.content_length
        ++ ",\n  \"key_points\": ["
        ++ String.intercalate ", " (a.key_points.map fun k => "\"" ++ k ++ "\"")
        ++ "],\n  \"analysis_timestamp\": \"" ++ a.analysis_timestamp
        ++ "\"\n\x7d"

/-- The formatted report prompt, the template of lines 180-197 with query,
search summary and analysis text substituted at lines 208-212. -/
def reportPromptText (query search_summary analysis : String) : String :=
  "\n            Based on the research query \"" ++ query
    ++ "\" and the following information, create a comprehensive research report:\n            \n            Search Results Summary:\n            "
    ++ search_summary
    ++ "\n            \n            Analysis Results:\n            "
    ++ analysis
    ++ "\n            \n            Please provide:\n            1. Executive Summary\n            2. Key Findings (with bullet points)\n            3. Detailed Analysis\n            4. Sources Used\n            5. Recommendations\n            \n            Format the report in a clear, professional manner with proper sections.\n            "

/-- The report_generator handler, lines 173-219: composes one prompt from
the query, the search results and the analysis, invokes the llm on it once,
and returns the raw completion as the final report plus one new message.
An llm failure is not caught and propagates. -/
def reportGenerator (caps : Caps) (s : AgentState) :
    Except CapErr PartialState × List CapCall :=
  let search_summary := searchSummaryOf s.search_results
  let analysis_text := analysisJson s.analysis
  let prompt := reportPromptText s.research_query search_summary analysis_text
  let callMsgs := [Msg.human prompt]
  match caps.llm callMsgs with
  | .error e => (.error e, [CapCall.llmCall callMsgs])
  | .ok resp =>
      (.ok { messages := some [Msg.ai resp],
             final_report := some resp },
       [CapCall.llmCall callMsgs])

/-- A graph node name; START and END are the sentinels imported at line 17
(langgraph uses them as special node identifiers). -/
def STARTNode : String := "__start__"

/-- The END sentinel node name. -/
def ENDNode : String := "__end__"

/-- The node registry built by the workflow.add_node calls, lines 225-228:
each step name bound to its handler. -/
def nodeHandlers :
    List (String × (Caps → AgentState → Except CapErr PartialState × List CapCall)) :=
  [("planner", researchPlanner),
   ("searcher", webSearcher),
   ("analyzer", contentAnalyzer),
   ("reporter", reportGenerator)]

/-- The edge list built by the workflow.add_edge calls, lines 231-235. -/
def edges : List (String × String) :=
  [(STARTNode, "planner"),
   ("planner", "searcher"),
   ("searcher", "analyzer"),
   ("analyzer", "reporter"),
   ("reporter", ENDNode)]

/-- The destination of the first outgoing edge of a node. -/
def nextNode (es : List (String × String)) (n : String) : Option String :=
  (es.find? (fun e => e.1 == n)).map (fun e => e.2)

/-- Modelled from the spec: the walk order the compiled graph derives from
the edge list — starting from START, repeatedly follow the single outgoing
edge until END, collecting the visited step names.  Fuel bounds the walk by
the number of edges. -/
def pathFrom (es : List (String × String)) : Nat → String → List String
  | 0, _ => []
  | fuel + 1, n =>
      match nextNode es n with
      | none => []
      | some m => if m == ENDNode then [] else m :: pathFrom es fuel m

/-- The step sequence of the compiled workflow: the walk from START through
the edge list, each name paired with its registered handler. -/
def pipeline :
    List (String × (Caps → AgentState → Except CapErr PartialState × List CapCall)) :=
  (pathFrom edges (edges.length + 1) STARTNode).filterMap
    (fun n => (nodeHandlers.find? (fun h => h.1 == n)).map (fun h => (n, h.2)))

/-- The outcome of driving the executor over a step sequence: the names of
the steps that were invoked, the capability calls they made, the last
committed state (the final checkpoint), the state committed after each
step, and either the final state or the uncaught error. -/
structure ExecResult where
  trace : List String
  calls : List CapCall
  committed : AgentState
  commits : List AgentState
  outcome : Except CapErr AgentState

/-- Modelled from the spec: the executor's walk — invoke each step in order
on the current committed state, commit its update via merge, checkpoint,
and advance; an uncaught error from a step halts the walk without advancing
past the failing step, leaving the last committed state in place. -/
def execSteps (caps : Caps) :
    List (String × (Caps → AgentState → Except CapErr PartialState × List CapCall)) →
      AgentState → ExecResult
  | [], s => ⟨[], [], s, [], .ok s⟩
  | (n, h) :: rest, s =>
      match h caps s with
      | (.error e, cs) => ⟨[n], cs, s, [], .error e⟩
      | (.ok p, cs) =>
          let s1 := merge s p
          let r := execSteps caps rest s1
          ⟨n :: r.trace, cs ++ r.calls, r.committed, s1 :: r.commits, r.outcome⟩

/-- The initial state built by research, lines 243-249. -/
def initialState (query : String) : AgentState where
  messages := [Msg.human query]
  research_query := query
  search_results := []
  analysis := none
  final_report := ""

/-- The dict returned by research, lines 253-261: on success the final
state's entries; on an uncaught exception a dict holding only an error
marker, one failure message and an error report — the keys search_results,
analysis and research_query are absent from the error dict. -/
structure RunDict where
  error : Option String := none
  messages : Option (List Msg) := none
  research_query : Option String := none
  search_results : Option (List SearchItem) := none
  analysis : Option (Option AnalysisRec) := none
  final_report : Option String := none
deriving DecidableEq

/-- The research entry point, lines 241-261: build the initial state,
invoke the workflow, and catch any exception into an error dict. -/
def research (caps : Caps) (query : String) : RunDict :=
  match (execSteps caps pipeline (initialState query)).outcome with
  | .ok st =>
      { error := none,
        messages := some st.messages,
        research_query := some st.research_query,
        search_results := some st.search_results,
        analysis := some st.analysis,
        final_report := some st.final_report }
  | .error e =>
      { error := some e.message,
        messages := some [Msg.ai ("Research failed: " ++ e.message)],
        final_report := some ("Error occurred during research: " ++ e.message) }

/-- A checkpoint: the committed state snapshot for a thread, with the index
of the step that produced it. -/
structure Checkpoint where
  state : AgentState
  stepIndex : Nat
deriving DecidableEq

/-- Modelled from the spec: the in-memory checkpoint store (MemorySaver,
line 238), addressed by thread id, latest snapshot only. -/
abbrev CheckpointStore := List (String × Checkpoint)

/-- Modelled from the spec: put overwrites any prior snapshot for the
thread id. -/
def CheckpointStore.put (store : CheckpointStore) (tid : String)
    (c : Checkpoint) : CheckpointStore :=
  (tid, c) :: store.filter (fun p => p.1 != tid)

/-- Modelled from the spec: get returns the latest snapshot for the thread
id, or none when the thread is unknown. -/
def CheckpointStore.get (store : CheckpointStore) (tid : String) :
    Option Checkpoint :=
  (store.find? (fun p => p.1 == tid)).map (fun p => p.2)

/-- Modelled from the spec: a run checkpoints the state it committed after
every step under its own thread id; this folds a run's commit sequence into
the store. -/
def runCheckpoints (caps : Caps) (tid : String) (query : String)
    (store : CheckpointStore) : CheckpointStore :=
  let commits := (execSteps caps pipeline (initialState query)).commits
  (List.range commits.length).zip commits
    |>.foldl (fun st ic => st.put tid ⟨ic.2, ic.1⟩) store

/-- C2: merge combines each field present in the update into the state by
that field's single registered rule — append (concatenation to the end) for
messages, overwrite for research_query, search_results, analysis and
final_report — and every absent field is passed through unchanged. -/
theorem merge_channel_rules (s : AgentState) (p : PartialState) :
    (p.messages = none → (merge s p).messages = s.messages) ∧
    (∀ ms, p.messages = some ms → (merge s p).messages = s.messages ++ ms) ∧
    (p.research_query = none →
      (merge s p).research_query = s.research_query) ∧
    (∀ q, p.research_query = some q → (merge s p).research_query = q) ∧
    (p.search_results = none →
      (merge s p).search_results = s.search_results) ∧
    (∀ r, p.search_results = some r → (merge s p).search_results = r) ∧
    (p.analysis = none → (merge s p).analysis = s.analysis) ∧
    (∀ a, p.analysis = some a → (merge s p).analysis = a) ∧
    (p.final_report = none → (merge s p).final_report = s.final_report) ∧
    (∀ r, p.final_report = some r → (merge s p).final_report = r) := by
  refine ⟨fun h => ?_, fun ms h => ?_, fun h => ?_, fun q h => ?_,
    fun h => ?_, fun r h => ?_, fun h => ?_, fun a h => ?_,
    fun h => ?_, fun r h => ?_⟩ <;> simp [merge, h]

/-- Witness for C2 at a concrete state and update. -/
theorem merge_channel_rules_spot :
    (merge ⟨[Msg.human "q"], "q", [], none, "r0"⟩
      ⟨some [Msg.ai "m"], some "q2", none, none, some "rep"⟩).messages
        = [Msg.human "q", Msg.ai "m"] ∧
    (merge ⟨[Msg.human "q"], "q", [], none, "r0"⟩
      ⟨some [Msg.ai "m"], some "q2", none, none, some "rep"⟩).research_query
        = "q2" ∧
    (merge ⟨[Msg.human "q"], "q", [], none, "r0"⟩
      ⟨some [Msg.ai "m"], some "q2", none, none, some "rep"⟩).search_results
        = [] ∧
    (merge ⟨[Msg.human "q"], "q", [], none, "r0"⟩
      ⟨some [Msg.ai "m"], some "q2", none, none, some "rep"⟩).analysis
        = none ∧
    (merge ⟨[Msg.human "q"], "q", [], none, "r0"⟩
      ⟨some [Msg.ai "m"], some "q2", none, none, some "rep"⟩).final_report
        = "rep" := by
  have h := merge_channel_rules ⟨[Msg.human "q"], "q", [], none, "r0"⟩
    ⟨some [Msg.ai "m"], some "q2", none, none, some "rep"⟩
  exact ⟨h.2.1 [Msg.ai "m"] rfl, h.2.2.2.1 "q2" rfl,
    h.2.2.2.2.1 rfl, h.2.2.2.2.2.2.1 rfl, h.2.2.2.2.2.2.2.2.2 "rep" rfl⟩

/-- C5: applying the same update twice is idempotent when it touches only
overwrite fields (its messages key is absent), and is not idempotent for a
messages-only update: the entries are appended in duplicate. -/
theorem merge_idempotence (s : AgentState) (p : PartialState) (ms : List Msg) :
    (p.messages = none → merge (merge s p) p = merge s p) ∧
    ((merge (merge s ⟨some ms, none, none, none, none⟩)
        ⟨some ms, none, none, none, none⟩).messages
      = s.messages ++ ms ++ ms) ∧
    (ms ≠ [] →
      merge (merge s ⟨some ms, none, none, none, none⟩)
          ⟨some ms, none, none, none, none⟩
        ≠ merge s ⟨some ms, none, none, none, none⟩) := by
  refine ⟨fun h => ?_, ?_, fun hne heq => ?_⟩
  · obtain ⟨pm, pq, pr, pa, pf⟩ := p
    simp only [PartialState.messages] at h
    subst h
    cases pq <;> cases pr <;> cases pa <;> cases pf <;> simp [merge]
  · simp [merge, List.append_assoc]
  · have := congrArg (fun st => st.messages.length) heq
    simp [merge] at this
    exact hne this

/-- Witness for C5 at a concrete state, overwrite-only update and nonempty
message list. -/
theorem merge_idempotence_spot :
    merge (merge ⟨[Msg.human "q"], "q", [], none, ""⟩
        ⟨none, some "q2", none, none, some "rep"⟩)
        ⟨none, some "q2", none, none, some "rep"⟩
      = merge ⟨[Msg.human "q"], "q", [], none, ""⟩
          ⟨none, some "q2", none, none, some "rep"⟩ ∧
    merge (merge ⟨[Msg.human "q"], "q", [], none, ""⟩
        ⟨some [Msg.ai "m"], none, none, none, none⟩)
        ⟨some [Msg.ai "m"], none, none, none, none⟩
      ≠ merge ⟨[Msg.human "q"], "q", [], none, ""⟩
          ⟨some [Msg.ai "m"], none, none, none, none⟩ := by
  refine ⟨?_, ?_⟩
  · exact (merge_idempotence ⟨[Msg.human "q"], "q", [], none, ""⟩
      ⟨none, some "q2", none, none, some "rep"⟩ []).1 rfl
  · exact (merge_idempotence ⟨[Msg.human "q"], "q", [], none, ""⟩
      ⟨none, none, none, none, none⟩ [Msg.ai "m"]).2.2 (by simp)

/-- C6: a messages-only update appends: the merged messages have length
len(s.messages) + len(p.messages) and the original messages are preserved
unchanged as the prefix. -/
theorem merge_messages_append (s : AgentState) (p : PartialState)
    (ms : List Msg) (hm : p.messages = some ms)
    (_hq : p.research_query = none) (_hr : p.search_results = none)
    (_ha : p.analysis = none) (_hf : p.final_report = none) :
    (merge s p).messages.length = s.messages.length + ms.length ∧
    (merge s p).messages.take s.messages.length = s.messages := by
  constructor
  · simp [merge, hm]
  · simp [merge, hm, List.take_left]

/-- Witness for C6 at a concrete state and messages-only update. -/
theorem merge_messages_append_spot :
    (merge ⟨[Msg.human "q", Msg.ai "p"], "q", [], none, ""⟩
      ⟨some [Msg.ai "a", Msg.ai "b"], none, none, none, none⟩).messages.length
        = 2 + 2 ∧
    (merge ⟨[Msg.human "q", Msg.ai "p"], "q", [], none, ""⟩
      ⟨some [Msg.ai "a", Msg.ai "b"], none, none, none, none⟩).messages.take 2
        = [Msg.human "q", Msg.ai "p"] := by
  exact merge_messages_append ⟨[Msg.human "q", Msg.ai "p"], "q", [], none, ""⟩
    ⟨some [Msg.ai "a", Msg.ai "b"], none, none, none, none⟩
    [Msg.ai "a", Msg.ai "b"] rfl rfl rfl rfl rfl

/-- Helper: the formatting loop equals a filterMap over the raw results,
keeping dict elements (projected with empty-string defaults) in their
original order and dropping everything else. -/
theorem formatResults_eq_filterMap (raw : List RawItem) :
    formatResults raw = raw.filterMap formatRawItem := by
  induction raw with
  | nil => rfl
  | cons r rest ih => cases r <;> simp [formatResults, formatRawItem, ih]

/-- C7: report_generator issues exactly one capability call per invocation
— the llm call on the single prompt composed from the query, the search
results and the analysis — and on success its update sets final_report to
exactly the raw completion text, appends that same text as one new message,
and touches no other field. -/
theorem reportGenerator_contract (caps : Caps) (s : AgentState) :
    (reportGenerator caps s).2
      = [CapCall.llmCall [Msg.human (reportPromptText s.research_query
          (searchSummaryOf s.search_results) (analysisJson s.analysis))]] ∧
    (∀ txt,
      caps.llm [Msg.human (reportPromptText s.research_query
          (searchSummaryOf s.search_results) (analysisJson s.analysis))]
        = .ok txt →
      (reportGenerator caps s).1 = .ok
        { messages := some [Msg.ai txt],
          research_query := none,
          search_results := none,
          analysis := none,
          final_report := some txt }) := by
  constructor
  · cases hc : caps.llm [Msg.human (reportPromptText s.research_query
        (searchSummaryOf s.search_results) (analysisJson s.analysis))] <;>
      simp [reportGenerator, hc]
  · intro txt hc
    simp [reportGenerator, hc]

/-- Witness for C7 at a concrete capability and state. -/
theorem reportGenerator_contract_spot :
    (reportGenerator ⟨fun _ => .ok "REPORT_X", fun _ => .ok [], "t0"⟩
        (initialState "q")).1
      = .ok { messages := some [Msg.ai "REPORT_X"],
              research_query := none,
              search_results := none,
              analysis := none,
              final_report := some "REPORT_X" } := by
  exact (reportGenerator_contract
    ⟨fun _ => .ok "REPORT_X", fun _ => .ok [], "t0"⟩
    (initialState "q")).2 "REPORT_X" rfl

/-- C9: whenever research_planner returns an update, that update leaves
search_results, analysis and final_report untouched — they are absent from
the update and unchanged by the merge — and it contains exactly one new
messages entry (the plan response). -/
theorem researchPlanner_frame (caps : Caps) (s : AgentState)
    (p : PartialState) (cs : List CapCall)
    (h : researchPlanner caps s = (.ok p, cs)) :
    p.search_results = none ∧ p.analysis = none ∧ p.final_report = none ∧
    (∃ m, p.messages = some [Msg.ai m]) ∧
    (merge s p).search_results = s.search_results ∧
    (merge s p).analysis = s.analysis ∧
    (merge s p).final_report = s.final_report := by
  cases hc : caps.llm (Msg.system plannerSystemText :: s.messages) with
  | error e => simp [researchPlanner, hc] at h
  | ok resp =>
      simp only [researchPlanner, hc, Prod.mk.injEq, Except.ok.injEq] at h
      obtain ⟨hp, -⟩ := h
      subst hp
      exact ⟨rfl, rfl, rfl, ⟨resp, rfl⟩, by simp [merge], by simp [merge],
        by simp [merge]⟩

/-- Witness for C9 at a concrete capability and the initial state. -/
theorem researchPlanner_frame_spot :
    ((⟨some [Msg.ai "PLAN"], some "q", none, none, none⟩ :
        PartialState).search_results = none) ∧
    (∃ m, (⟨some [Msg.ai "PLAN"], some "q", none, none, none⟩ :
        PartialState).messages = some [Msg.ai m]) ∧
    (merge (initialState "q")
      ⟨some [Msg.ai "PLAN"], some "q", none, none, none⟩).search_results
        = (initialState "q").search_results := by
  have h := researchPlanner_frame
    ⟨fun _ => .ok "PLAN", fun _ => .ok [], "t0"⟩ (initialState "q")
    ⟨some [Msg.ai "PLAN"], some "q", none, none, none⟩
    [CapCall.llmCall [Msg.system plannerSystemText, Msg.human "q"]] rfl
  exact ⟨h.1, h.2.2.2.1, h.2.2.2.2.1⟩

/-- C10: when the search capability succeeds, the searcher's update sets
search_results to the raw list filtered to its dict elements, each
projected to exactly the three string fields title/content/url with
empty-string defaults for missing keys, non-dict elements dropped, order
preserved. -/
theorem webSearcher_formats (caps : Caps) (s : AgentState)
    (raw : List RawItem) (h : caps.search s.research_query = .ok raw) :
    (webSearcher caps s).1 = .ok
      { messages := some [Msg.ai ("Found "
          ++ toString (raw.filterMap formatRawItem).length
          ++ " relevant sources for: " ++ s.research_query)],
        research_query := none,
        search_results := some (raw.filterMap formatRawItem),
        analysis := none,
        final_report := none } := by
  simp [webSearcher, h, formatResults_eq_filterMap]

/-- Witness for C10: a raw response with a partial dict, a non-dict value
and a full dict formats to two records in order. -/
theorem webSearcher_formats_spot :
    (webSearcher ⟨fun _ => .ok "", fun _ => .ok
        [RawItem.dict (some "T") none (some "U"), RawItem.other,
         RawItem.dict none (some "C") none], "t0"⟩
      (initialState "q")).1 = .ok
      { messages := some [Msg.ai "Found 2 relevant sources for: q"],
        research_query := none,
        search_results := some
          [{ title := "T", content := "", url := "U" },
           { title := "", content := "C", url := "" }],
        analysis := none,
        final_report := none } := by
  exact webSearcher_formats
    ⟨fun _ => .ok "", fun _ => .ok
      [RawItem.dict (some "T") none (some "U"), RawItem.other,
       RawItem.dict none (some "C") none], "t0"⟩
    (initialState "q")
    [RawItem.dict (some "T") none (some "U"), RawItem.other,
     RawItem.dict none (some "C") none] rfl

/-- Helper: the walk derived from the edge list visits exactly the four
registered steps in order, binding each to its handler. -/
theorem pipeline_eq :
    pipeline = [("planner", researchPlanner), ("searcher", webSearcher),
      ("analyzer", contentAnalyzer), ("reporter", reportGenerator)] := rfl

/-- Helper: whatever the capabilities do, the executor invokes a prefix of
the step sequence — it never reorders, repeats or skips into later steps. -/
theorem execSteps_trace_take (caps : Caps)
    (steps : List (String ×
      (Caps → AgentState → Except CapErr PartialState × List CapCall)))
    (s : AgentState) :
    ∃ k, (execSteps caps steps s).trace = (steps.map Prod.fst).take k := by
  induction steps generalizing s with
  | nil => exact ⟨0, rfl⟩
  | cons a rest ih =>
      obtain ⟨nm, hd⟩ := a
      rcases hr : hd caps s with ⟨res, cs⟩
      cases res with
      | error e => exact ⟨1, by simp [execSteps, hr]⟩
      | ok p =>
          obtain ⟨k, hk⟩ := ih (merge s p)
          exact ⟨k + 1, by simp [execSteps, hr, hk]⟩

/-- C4: under a completing llm, every run invokes the steps in exactly the
order planner, searcher, analyzer, reporter — each once, none skipped, none
reordered — whatever the search capability's outcome; and in the edge list
every non-terminal step (including START) has exactly one outgoing edge,
and the walk derived from the edges is exactly that sequence. -/
theorem run_step_order (caps : Caps) (f : List Msg → String) (query : String)
    (hllm : ∀ msgs, caps.llm msgs = Except.ok (f msgs)) :
    (execSteps caps pipeline (initialState query)).trace
      = ["planner", "searcher", "analyzer", "reporter"] ∧
    (∀ n, n ∈ [STARTNode, "planner", "searcher", "analyzer", "reporter"] →
      (edges.filter (fun e => e.1 == n)).length = 1) ∧
    pathFrom edges (edges.length + 1) STARTNode
      = ["planner", "searcher", "analyzer", "reporter"] ∧
    (∀ (caps2 : Caps) (s2 : AgentState), ∃ k,
      (execSteps caps2 pipeline s2).trace
        = ["planner", "searcher", "analyzer", "reporter"].take k) := by
  refine ⟨?_, by decide, rfl, fun caps2 s2 => execSteps_trace_take caps2 pipeline s2⟩
  rw [pipeline_eq]
  cases hs : caps.search query with
  | ok raw =>
      by_cases hemp : (formatResults raw).isEmpty <;>
        simp [execSteps, researchPlanner, webSearcher, contentAnalyzer,
          reportGenerator, hllm, hs, hemp, initialState, merge,
          Msg.isHuman, Msg.content]
  | error e =>
      simp [execSteps, researchPlanner, webSearcher, contentAnalyzer,
        reportGenerator, hllm, hs, initialState, merge,
        Msg.isHuman, Msg.content]

/-- Witness for C4 at a concrete capability set and query. -/
theorem run_step_order_spot :
    (execSteps ⟨fun _ => .ok "R", fun _ => .ok [], "t0"⟩ pipeline
      (initialState "q")).trace
        = ["planner", "searcher", "analyzer", "reporter"] := by
  exact (run_step_order ⟨fun _ => .ok "R", fun _ => .ok [], "t0"⟩
    (fun _ => "R") "q" (fun _ => rfl)).1

/-- C3: when the search capability fails, the searcher absorbs the error —
committing empty search_results plus one failure message — the analyzer
handles the empty results without halting, and the run still reaches the
reporter and returns a non-error result whose report is the completion of a
prompt composed from an empty search summary and an empty analysis. -/
theorem search_failure_absorbed (caps : Caps) (f : List Msg → String)
    (query : String) (e : CapErr)
    (hllm : ∀ msgs, caps.llm msgs = Except.ok (f msgs))
    (hs : caps.search query = Except.error e) :
    research caps query =
      { error := none,
        messages := some [Msg.human query,
          Msg.ai (f [Msg.system plannerSystemText, Msg.human query]),
          Msg.ai ("Search error: " ++ e.message),
          Msg.ai "No search results to analyze.",
          Msg.ai (f [Msg.human (reportPromptText query (searchSummaryOf [])
            (analysisJson none))])],
        research_query := some query,
        search_results := some [],
        analysis := some none,
        final_report := some (f [Msg.human (reportPromptText query
          (searchSummaryOf []) (analysisJson none))]) } ∧
    (execSteps caps pipeline (initialState query)).trace
      = ["planner", "searcher", "analyzer", "reporter"] := by
  constructor <;>
    simp [research, pipeline_eq, execSteps, researchPlanner, webSearcher,
      contentAnalyzer, reportGenerator, hllm, hs, initialState, merge,
      Msg.isHuman, Msg.content, searchSummaryOf]

/-- Witness for C3 at a concrete failing search capability. -/
theorem search_failure_absorbed_spot :
    research ⟨fun _ => .ok "R", fun _ => .error ⟨"search down"⟩, "t0"⟩ "q"
      = { error := none,
          messages := some [Msg.human "q", Msg.ai "R",
            Msg.ai "Search error: search down",
            Msg.ai "No search results to analyze.", Msg.ai "R"],
          research_query := some "q",
          search_results := some [],
          analysis := some none,
          final_report := some "R" } := by
  exact (search_failure_absorbed
    ⟨fun _ => .ok "R", fun _ => .error ⟨"search down"⟩, "t0"⟩
    (fun _ => "R") "q" ⟨"search down"⟩ (fun _ => rfl) rfl).1

/-- C1 (amended): when the completion capability fails on the report call
after the earlier steps succeeded, the executor halts at the failing step —
its outcome is the error, and its last committed checkpoint is exactly the
state committed after the analyzer — and research returns a terminal error
dict with an explicit error marker, one failure message and an error
report; the committed search_results and analysis are NOT carried in that
dict: those keys are absent. -/
theorem report_failure_halts (caps : Caps) (query planText : String)
    (e : CapErr)
    (hplan : caps.llm [Msg.system plannerSystemText, Msg.human query]
      = Except.ok planText)
    (hrep : ∀ prompt, caps.llm [Msg.human prompt] = Except.error e) :
    research caps query =
      { error := some e.message,
        messages := some [Msg.ai ("Research failed: " ++ e.message)],
        research_query := none,
        search_results := none,
        analysis := none,
        final_report :=
          some ("Error occurred during research: " ++ e.message) } ∧
    (execSteps caps pipeline (initialState query)).trace
      = ["planner", "searcher", "analyzer", "reporter"] ∧
    (execSteps caps pipeline (initialState query)).outcome
      = Except.error e ∧
    (execSteps caps pipeline (initialState query)).committed
      = (execSteps caps [("planner", researchPlanner),
          ("searcher", webSearcher), ("analyzer", contentAnalyzer)]
          (initialState query)).committed := by
  refine ⟨?_, ?_, ?_, ?_⟩ <;>
    cases hs : caps.search query with
  | ok raw =>
      by_cases hemp : (formatResults raw).isEmpty <;>
        simp [research, pipeline_eq, execSteps, researchPlanner, webSearcher,
          contentAnalyzer, reportGenerator, hplan, hrep, hs, hemp,
          initialState, merge, Msg.isHuman, Msg.content]
  | error e2 =>
      simp [research, pipeline_eq, execSteps, researchPlanner, webSearcher,
        contentAnalyzer, reportGenerator, hplan, hrep, hs,
        initialState, merge, Msg.isHuman, Msg.content]

/-- Witness for the amended C1 at a concrete capability set: the llm fails
exactly on single-message (report) calls. -/
theorem report_failure_halts_spot :
    research ⟨fun msgs => if msgs.length == 1
        then Except.error ⟨"completion down"⟩ else Except.ok "PLAN",
      fun _ => Except.ok [RawItem.dict (some "T") (some "C") (some "U")],
      "t0"⟩ "q"
      = { error := some "completion down",
          messages := some [Msg.ai "Research failed: completion down"],
          research_query := none,
          search_results := none,
          analysis := none,
          final_report :=
            some "Error occurred during research: completion down" } := by
  exact (report_failure_halts
    ⟨fun msgs => if msgs.length == 1
        then Except.error ⟨"completion down"⟩ else Except.ok "PLAN",
      fun _ => Except.ok [RawItem.dict (some "T") (some "C") (some "U")],
      "t0"⟩ "q" "PLAN" ⟨"completion down"⟩ rfl (fun _ => rfl)).1

/-- Counterexample to C1 as stated: at this input the completion capability
fails permanently during the report step and research returns an error
result, yet that result's search_results and analysis are absent — not the
values committed after the analyzer, which are nonempty here. -/
theorem report_failure_drops_state_cex :
    (research ⟨fun msgs => if msgs.length == 1
        then Except.error ⟨"completion down"⟩ else Except.ok "PLAN",
      fun _ => Except.ok [RawItem.dict (some "T") (some "C") (some "U")],
      "t0"⟩ "q").error = some "completion down" ∧
    (execSteps ⟨fun msgs => if msgs.length == 1
        then Except.error ⟨"completion down"⟩ else Except.ok "PLAN",
      fun _ => Except.ok [RawItem.dict (some "T") (some "C") (some "U")],
      "t0"⟩ pipeline (initialState "q")).committed.search_results
      = [{ title := "T", content := "C", url := "U" }] ∧
    (research ⟨fun msgs => if msgs.length == 1
        then Except.error ⟨"completion down"⟩ else Except.ok "PLAN",
      fun _ => Except.ok [RawItem.dict (some "T") (some "C") (some "U")],
      "t0"⟩ "q").search_results
      ≠ some (execSteps ⟨fun msgs => if msgs.length == 1
          then Except.error ⟨"completion down"⟩ else Except.ok "PLAN",
        fun _ => Except.ok [RawItem.dict (some "T") (some "C") (some "U")],
        "t0"⟩ pipeline (initialState "q")).committed.search_results ∧
    (research ⟨fun msgs => if msgs.length == 1
        then Except.error ⟨"completion down"⟩ else Except.ok "PLAN",
      fun _ => Except.ok [RawItem.dict (some "T") (some "C") (some "U")],
      "t0"⟩ "q").analysis
      ≠ some (execSteps ⟨fun msgs => if msgs.length == 1
          then Except.error ⟨"completion down"⟩ else Except.ok "PLAN",
        fun _ => Except.ok [RawItem.dict (some "T") (some "C") (some "U")],
        "t0"⟩ pipeline (initialState "q")).committed.analysis := by
  refine ⟨?_, ?_, ?_, ?_⟩ <;> decide

/-- Helper: filtering out another key does not change which entry find?
locates for this key. -/
theorem find?_filter_other_key (l : List (String × Checkpoint))
    (t1 t2 : String) (h : t1 ≠ t2) :
    (l.filter (fun p => p.1 != t2)).find? (fun p => p.1 == t1)
      = l.find? (fun p => p.1 == t1) := by
  induction l with
  | nil => rfl
  | cons a rest ih =>
      obtain ⟨k, v⟩ := a
      by_cases h2 : k = t2
      · subst h2
        have hk : (k == t1) = false := by
          simp only [beq_eq_false_iff_ne]
          exact fun he => h he.symm
        simp [List.filter_cons, List.find?_cons, hk, ih]
      · have hk2 : (k != t2) = true := by simp [h2]
        by_cases h1 : k = t1
        · subst h1
          simp [List.filter_cons, List.find?_cons, hk2]
        · have hk1 : (k == t1) = false := by simp [h1]
          simp [List.filter_cons, List.find?_cons, hk2, hk1, ih]

/-- Helper: a put under one thread id leaves get under a different thread
id unchanged. -/
theorem get_put_other (st : CheckpointStore) (t1 t2 : String)
    (c : Checkpoint) (h : t1 ≠ t2) :
    (st.put t2 c).get t1 = st.get t1 := by
  have h2 : (t2 == t1) = false := by
    simp [beq_eq_false_iff_ne]
    exact fun he => h he.symm
  simp [CheckpointStore.put, CheckpointStore.get, List.find?_cons, h2,
    find?_filter_other_key st t1 t2 h]

/-- Helper: a whole fold of puts under one thread id leaves get under a
different thread id unchanged. -/
theorem get_foldl_put_other (l : List (Nat × AgentState))
    (st : CheckpointStore) (t1 t2 : String) (h : t1 ≠ t2) :
    CheckpointStore.get
      (l.foldl (fun acc ic => acc.put t2 ⟨ic.2, ic.1⟩) st) t1
      = st.get t1 := by
  induction l generalizing st with
  | nil => rfl
  | cons a rest ih =>
      rw [List.foldl_cons, ih, get_put_other st t1 t2 _ h]

/-- C8: checkpoints of distinct thread ids are independent — running a
whole workflow that checkpoints under threadId2 leaves every read under
threadId1 exactly as it was — and a fresh thread id with no entry in the
store reads no state at all from other runs. -/
theorem checkpoint_isolation (store : CheckpointStore)
    (t1 t2 fresh : String) (caps : Caps) (query : String)
    (h : t1 ≠ t2) (hf : ∀ p ∈ store, p.1 ≠ fresh) :
    (runCheckpoints caps t2 query store).get t1 = store.get t1 ∧
    store.get fresh = none := by
  constructor
  · exact get_foldl_put_other _ store t1 t2 h
  · have hnone : store.find? (fun p => p.1 == fresh) = none := by
      apply List.find?_eq_none.mpr
      intro p hp
      simpa using hf p hp
    simp [CheckpointStore.get, hnone]

/-- Witness for C8: a store holding a checkpoint under thread a is
untouched by a full run checkpointing under thread b, and thread c reads
nothing. -/
theorem checkpoint_isolation_spot :
    (runCheckpoints ⟨fun _ => .ok "R", fun _ => .ok [], "t0"⟩ "b" "q"
      ([("a", ⟨initialState "x", 0⟩)] : CheckpointStore)).get "a"
      = CheckpointStore.get [("a", ⟨initialState "x", 0⟩)] "a" ∧
    CheckpointStore.get [("a", ⟨initialState "x", 0⟩)] "c" = none := by
  exact checkpoint_isolation [("a", ⟨initialState "x", 0⟩)] "a" "b" "c"
    ⟨fun _ => .ok "R", fun _ => .ok [], "t0"⟩ "q"
    (by decide) (by decide)
